import Mathlib

/-
Verification of the time-tracker core (src/time_tracker.py) against its
specification.  The embedding models the TimeTrackerApp methods as pure
functions over an explicit application state.

Modelling conventions:
- Timestamps (values of Python time.time()) are rationals counting local
  seconds since the epoch.  Python int() truncation is pyInt below.
- The SQLite store is a pair of lists: the projects table and the entries
  table, both append-only in this program.  TEXT columns holding datetime
  values are modelled by the instant itself: the ISO text rendering of
  datetime is injective and its lexicographic order agrees with the order
  of the instants, so equality and ORDER BY on the TEXT column coincide
  with equality and order on the rational timestamp.
- date(start_time) in SQL yields the calendar day of the instant, modelled
  as floor(t / 86400); datetime.now().date() is the day number passed to
  show_totals; Python date.weekday() is (day + 3) mod 7 since day 0 of the
  epoch was a Thursday.
- The UI signals failures through tkinter message boxes; each handler is
  paired with a function giving the dialogs that branch shows, so that
  which failures are surfaced and which branches are silent is part of the
  model.
- Store failures (the StoreUnavailable case of the spec) are modelled by a
  Boolean persistOk parameter to stop_timer: when the INSERT or commit
  raises, the Python handler aborts before the lines that clear the
  session, so the state is returned unchanged.
-/

namespace TimeTracker

/-- Python int() applied to a rational: truncation toward zero. -/
def pyInt (q : ℚ) : ℤ := if 0 ≤ q then ⌊q⌋ else ⌈q⌉

/-- A row of the projects table: id INTEGER PRIMARY KEY, name TEXT UNIQUE. -/
structure Project where
  id : Nat
  name : String
deriving DecidableEq

/-- A row of the entries table: id, project_id (a plain INTEGER column, the
schema in create_tables declares no FOREIGN KEY), start_time, end_time,
duration INTEGER, note. -/
structure Entry where
  id : Nat
  project_id : Nat
  start_time : ℚ
  end_time : ℚ
  duration : ℤ
  note : String
deriving DecidableEq

/-- The SQLite database: the two tables created by create_tables. -/
structure Store where
  projects : List Project
  entries : List Entry
deriving DecidableEq

/-- The mutable fields of TimeTrackerApp that the core handlers touch:
the store (connection), active_project_id, start_time, and the text held
by the note entry widget. -/
structure AppState where
  store : Store
  active_project_id : Option Nat
  start_time : Option ℚ
  note_entry : String
deriving DecidableEq

/-- Kinds of tkinter message boxes the handlers show. -/
inductive DialogKind where
  | warning
  | error
  | info
deriving DecidableEq

/-- One message box: messagebox.showwarning / showerror / showinfo. -/
structure Dialog where
  kind : DialogKind
  title : String
  message : String
deriving DecidableEq

/-- SQLite assigns INTEGER PRIMARY KEY as one more than the largest id in
the table (rows are never deleted in this program). -/
def nextId (ids : List Nat) : Nat := ids.foldr max 0 + 1

/-- SELECT id FROM projects WHERE name=? followed by fetchone(): the first
row whose name matches, if any. -/
def lookupProjectId (s : Store) (name : String) : Option Nat :=
  (s.projects.find? (fun p => p.name == name)).map (fun p => p.id)

/-- Outcome of the start_timer handler. -/
inductive StartResult where
  | alreadyRunning
  | noSelection
  | unknownProject
  | ok
deriving DecidableEq

/-- start_timer: refuses when active_project_id is set (warning box, early
return); returns silently when the listbox has no selection; looks the
selected name up in projects — when fetchone() yields no row the
subscription raises and the handler aborts with the state untouched
(the unknownProject outcome); otherwise records the session. -/
def start_timer (sel : Option String) (now : ℚ) (st : AppState) :
    StartResult × AppState :=
  if st.active_project_id.isSome then (.alreadyRunning, st)
  else
    match sel with
    | none => (.noSelection, st)
    | some name =>
        match lookupProjectId st.store name with
        | none => (.unknownProject, st)
        | some pid =>
            (.ok, { st with active_project_id := some pid, start_time := some now })

/-- The message boxes each start_timer branch shows: only the
already-running branch signals anything (messagebox.showwarning). -/
def start_dialogs (r : StartResult) : List Dialog :=
  match r with
  | .alreadyRunning => [⟨.warning, "Running", "Timer already running"⟩]
  | _ => []

/-- INSERT INTO entries(project_id, start_time, end_time, duration, note):
appends a fresh row.  The entries schema carries no FOREIGN KEY and no
check on project_id is made anywhere, so the append is unconditional. -/
def insert_entry (s : Store) (pid : Nat) (startT endT : ℚ) (dur : ℤ)
    (note : String) : Store :=
  { s with entries :=
      s.entries ++ [⟨nextId (s.entries.map (fun e => e.id)), pid, startT, endT, dur, note⟩] }

/-- Outcome of the stop_timer handler. -/
inductive StopResult where
  | notRunningSilent
  | corruptSession
  | storeFailed
  | ok
deriving DecidableEq

/-- stop_timer: when active_project_id is unset the handler is a bare
return — no dialog, no effect (notRunningSilent).  Otherwise it computes
end and duration, runs the INSERT and commit (when these raise the handler
aborts with the state untouched: storeFailed), then clears the session and
the note widget.  corruptSession covers the unreachable state where
active_project_id is set but start_time is not: the subtraction would
raise before any effect. -/
def stop_timer (now : ℚ) (persistOk : Bool) (st : AppState) :
    StopResult × AppState :=
  match st.active_project_id with
  | none => (.notRunningSilent, st)
  | some pid =>
      match st.start_time with
      | none => (.corruptSession, st)
      | some s0 =>
          let dur := pyInt (now - s0)
          if persistOk then
            (.ok, { st with
                store := insert_entry st.store pid s0 now dur st.note_entry,
                active_project_id := none,
                start_time := none,
                note_entry := "" })
          else (.storeFailed, st)

/-- The message boxes each stop_timer branch shows: none — stop_timer
contains no messagebox call on any path. -/
def stop_dialogs (_ : StopResult) : List Dialog := []

/-- Outcome of the add_project handler. -/
inductive AddResult where
  | cancelled
  | duplicate
  | ok
deriving DecidableEq

/-- add_project: askstring may be cancelled or empty (falsy: no-op);
INSERT INTO projects(name) raises IntegrityError on a duplicate name
(UNIQUE column), surfaced as an error box; otherwise the project row is
appended. -/
def add_project (name : Option String) (st : AppState) : AddResult × AppState :=
  match name with
  | none => (.cancelled, st)
  | some n =>
      if n == "" then (.cancelled, st)
      else if st.store.projects.any (fun p => p.name == n) then (.duplicate, st)
      else (.ok, { st with store :=
        { st.store with projects :=
            st.store.projects ++ [⟨nextId (st.store.projects.map (fun p => p.id)), n⟩] } })

/-- The message boxes each add_project branch shows. -/
def add_dialogs (r : AddResult) : List Dialog :=
  match r with
  | .duplicate => [⟨.error, "Error", "Project already exists"⟩]
  | _ => []

/-- Calendar day of an instant: what date(start_time) yields in SQL. -/
def dateOf (t : ℚ) : ℤ := ⌊t / 86400⌋

/-- Python date.weekday(): Monday is 0 through Sunday 6; day 0 of the
epoch (1970-01-01) was a Thursday, weekday 3. -/
def weekday (d : ℤ) : ℤ := (d + 3) % 7

/-- week_start = today - timedelta(days=today.weekday()). -/
def weekStart (d : ℤ) : ℤ := d - weekday d

/-- SQL SUM over a list of INTEGER values: NULL (none) when no rows. -/
def sqlSum (l : List ℤ) : Option ℤ :=
  match l with
  | [] => none
  | _ => some l.sum

/-- Rows selected by WHERE date(start_time)=?, the daily filter. -/
def dailyRows (s : Store) (today : ℤ) : List Entry :=
  s.entries.filter (fun e => decide (dateOf e.start_time = today))

/-- Rows selected by WHERE date(start_time)>=?, the weekly filter against
week_start (ISO date TEXT compares like the underlying day numbers). -/
def weeklyRows (s : Store) (today : ℤ) : List Entry :=
  s.entries.filter (fun e => decide (weekStart today ≤ dateOf e.start_time))

/-- SELECT SUM(duration) FROM entries WHERE date(start_time)=?, with the
Python `daily or 0` recovery of NULL to 0. -/
def daily_total (s : Store) (today : ℤ) : ℤ :=
  (sqlSum ((dailyRows s today).map (fun e => e.duration))).getD 0

/-- SELECT SUM(duration) FROM entries WHERE date(start_time)>=week_start,
with the `weekly or 0` recovery of NULL to 0. -/
def weekly_total (s : Store) (today : ℤ) : ℤ :=
  (sqlSum ((weeklyRows s today).map (fun e => e.duration))).getD 0

/-- show_totals: computes today and week_start from the clock and reports
the daily and weekly sums (the dialog renders them with format_time). -/
def show_totals (today : ℤ) (st : AppState) : ℤ × ℤ :=
  (daily_total st.store today, weekly_total st.store today)

/-- One result row of the entries-joined-with-projects SELECT used by both
refresh_entries and export_csv. -/
structure Row where
  project : String
  start_time : ℚ
  end_time : ℚ
  duration : ℤ
  note : String
deriving DecidableEq

/-- The row the join yields for one entry: an inner JOIN on
entries.project_id = projects.id, so an entry without a matching project
contributes no row. -/
def entryRow (s : Store) (e : Entry) : Option Row :=
  (s.projects.find? (fun p => p.id == e.project_id)).map
    (fun p => ⟨p.name, e.start_time, e.end_time, e.duration, e.note⟩)

/-- SELECT projects.name, start_time, end_time, duration, note FROM entries
JOIN projects ON entries.project_id = projects.id — without ORDER BY the
rows come back in entries-table order. -/
def joinRows (s : Store) : List Row := s.entries.filterMap (entryRow s)

/-- The ORDER BY start_time DESC relation on rows. -/
def rowDesc (a b : Row) : Prop := b.start_time ≤ a.start_time

instance : DecidableRel rowDesc := fun a b =>
  inferInstanceAs (Decidable (b.start_time ≤ a.start_time))

instance : IsTotal Row rowDesc := ⟨fun a b => le_total b.start_time a.start_time⟩

instance : IsTrans Row rowDesc := ⟨fun _ _ _ hab hbc => le_trans hbc hab⟩

/-- The query of refresh_entries: the join ORDER BY start_time DESC.  This
is the list_entries contract of the spec (the tree then renders duration
through format_time, which does not reorder rows). -/
def list_entries (s : Store) : List Row :=
  List.insertionSort rowDesc (joinRows s)

/-- The header row export_csv writes. -/
def csvHeader : List String :=
  ["Project", "Start", "End", "Duration (sec)", "Note"]

/-- The delimited file: header plus data rows.  The csv writer and reader
are the external collaborators the spec leaves out of scope; they are
faithful inverses on field rows, so the file is modelled at row level. -/
structure CsvFile where
  header : List String
  rows : List Row
deriving DecidableEq

/-- export_csv: runs the join WITHOUT any ORDER BY and hands the rows, in
entries-table order, to the csv writer after the header row. -/
def export_csv (s : Store) : CsvFile := ⟨csvHeader, joinRows s⟩

/-- Re-parsing the delimited file: the header row is skipped and the data
rows come back as written. -/
def parseCsv (f : CsvFile) : List Row := f.rows

/-- The user intents the presentation layer can dispatch to the core. -/
inductive Op where
  | addProject (name : Option String)
  | start (sel : Option String) (now : ℚ)
  | stop (now : ℚ) (persistOk : Bool)
  | showTotals (today : ℤ)
  | exportCsv
  | refresh

/-- The state after dispatching one intent (queries leave it unchanged). -/
def stepA (st : AppState) (o : Op) : AppState :=
  match o with
  | .addProject n => (add_project n st).2
  | .start sel now => (start_timer sel now st).2
  | .stop now persistOk => (stop_timer now persistOk st).2
  | .showTotals _ => st
  | .exportCsv => st
  | .refresh => st

/-- The state after a sequence of intents. -/
def runA (st : AppState) (ops : List Op) : AppState := ops.foldl stepA st

/-- A session is active exactly when active_project_id is set. -/
def sessionActive (st : AppState) : Bool := st.active_project_id.isSome

/-- Whether an intent is a start that succeeds in the given state. -/
def startOk (o : Op) (st : AppState) : Bool :=
  match o with
  | .start sel now =>
      match (start_timer sel now st).1 with
      | .ok => true
      | _ => false
  | _ => false

/-- Whether an intent is a stop that succeeds in the given state. -/
def stopOk (o : Op) (st : AppState) : Bool :=
  match o with
  | .stop now persistOk =>
      match (stop_timer now persistOk st).1 with
      | .ok => true
      | _ => false
  | _ => false

/-- No intent of the sequence is a successful stop, threading the state. -/
def noStopOk : AppState → List Op → Bool
  | _, [] => true
  | st, o :: os => (!stopOk o st) && noStopOk (stepA st o) os

/-- No intent of the sequence is a successful start, threading the state. -/
def noStartOk : AppState → List Op → Bool
  | _, [] => true
  | st, o :: os => (!startOk o st) && noStartOk (stepA st o) os

/-! Concrete states used to evaluate the theorems on explicit inputs. -/

/-- A state with one project and a session running on it since instant 10. -/
def demoActive : AppState := ⟨⟨[⟨1, "Alpha"⟩], []⟩, some 1, some 10, ""⟩

/-- A state with one project and no running session. -/
def idleState : AppState := ⟨⟨[⟨1, "Alpha"⟩], []⟩, none, none, ""⟩

/-- Two entries on calendar day 0 with durations 600 and 900. -/
def sameDayStore : Store :=
  ⟨[⟨1, "Alpha"⟩],
   [⟨1, 1, 3600, 4200, 600, ""⟩, ⟨2, 1, 7200, 8100, 900, ""⟩]⟩

/-- One entry whose start instant lies on day 15, five days before the
query day 20 (a Wednesday) but in the previous ISO week. -/
def prevWeekStore : Store :=
  ⟨[⟨1, "Alpha"⟩], [⟨1, 1, 1296100, 1296400, 300, ""⟩]⟩

/-- Two entries inserted in ascending start order: the table order is the
reverse of descending start order. -/
def twoEntryStore : Store :=
  ⟨[⟨1, "Alpha"⟩],
   [⟨1, 1, 100, 200, 100, "a"⟩, ⟨2, 1, 200000, 200600, 600, "b"⟩]⟩

/-- A store together with one additional entry at the head of the table. -/
def storeWith (s : Store) (e : Entry) : Store :=
  { s with entries := e :: s.entries }

/-- Wraps a store as an idle application state. -/
def mkState (s : Store) : AppState := ⟨s, none, none, ""⟩

/-! Helper lemmas. -/

/-- Recovering NULL to 0 turns SQL SUM into the plain list sum. -/
theorem sqlSum_getD (l : List ℤ) : (sqlSum l).getD 0 = l.sum := by
  cases l with
  | nil => rfl
  | cons a l => rfl

/-- The Monday of the current week is never after today. -/
theorem weekStart_le (d : ℤ) : weekStart d ≤ d := by
  have h : 0 ≤ (d + 3) % 7 := Int.emod_nonneg _ (by norm_num)
  unfold weekStart weekday
  omega

/-- add_project never touches the session fields or the entries table. -/
theorem add_project_session (n : Option String) (st : AppState) :
    (add_project n st).2.active_project_id = st.active_project_id ∧
    (add_project n st).2.start_time = st.start_time ∧
    (add_project n st).2.store.entries = st.store.entries := by
  cases n with
  | none => exact ⟨rfl, rfl, rfl⟩
  | some s =>
      by_cases h1 : (s == "") = true
      · simp [add_project, h1]
      · by_cases h2 : (st.store.projects.any (fun p => p.name == s)) = true
        · simp [add_project, h1, h2]
        · simp [add_project, h1, h2]

/-- With a session active, start_timer takes the warning branch and leaves
the state unchanged. -/
theorem start_timer_when_active (sel : Option String) (now : ℚ) (st : AppState)
    (hA : st.active_project_id.isSome = true) :
    start_timer sel now st = (.alreadyRunning, st) := by
  simp [start_timer, hA]

/-- One step from an active session: unless the step is a successful stop,
the session stays active and no start succeeds. -/
theorem stepA_keeps_active (st : AppState) (o : Op)
    (hA : sessionActive st = true) (hNS : stopOk o st = false) :
    sessionActive (stepA st o) = true ∧ startOk o st = false := by
  cases o with
  | addProject n =>
      refine ⟨?_, rfl⟩
      have h := (add_project_session n st).1
      unfold sessionActive at hA
      show ((add_project n st).2.active_project_id).isSome = true
      rw [h]
      exact hA
  | start sel now =>
      have hs := start_timer_when_active sel now st hA
      constructor
      · show sessionActive (start_timer sel now st).2 = true
        rw [hs]
        exact hA
      · simp [startOk, hs]
  | stop now persistOk =>
      unfold sessionActive at hA
      cases hpid : st.active_project_id with
      | none => rw [hpid] at hA; cases hA
      | some pid =>
          cases hs : st.start_time with
          | none =>
              have h : stop_timer now persistOk st = (.corruptSession, st) := by
                unfold stop_timer
                rw [hpid, hs]
              constructor
              · show sessionActive (stop_timer now persistOk st).2 = true
                rw [h]
                unfold sessionActive
                rw [hpid]
                rfl
              · rfl
          | some s0 =>
              cases persistOk with
              | true =>
                  have h : stopOk (Op.stop now true) st = true := by
                    unfold stopOk stop_timer
                    rw [hpid, hs]
                    rfl
                  rw [h] at hNS
                  cases hNS
              | false =>
                  have h : stop_timer now false st = (.storeFailed, st) := by
                    simp [stop_timer, hpid, hs]
                  constructor
                  · show sessionActive (stop_timer now false st).2 = true
                    rw [h]
                    unfold sessionActive
                    rw [hpid]
                    rfl
                  · rfl
  | showTotals d => exact ⟨hA, rfl⟩
  | exportCsv => exact ⟨hA, rfl⟩
  | refresh => exact ⟨hA, rfl⟩

/-- Along any run without a successful stop, a session that is active
stays active and no start succeeds. -/
theorem runA_active_of_noStop : ∀ (ops : List Op) (st : AppState),
    sessionActive st = true → noStopOk st ops = true →
    sessionActive (runA st ops) = true ∧ noStartOk st ops = true := by
  intro ops
  induction ops with
  | nil => intro st hA _; exact ⟨hA, rfl⟩
  | cons o os ih =>
      intro st hA hNS
      have hparts : (!stopOk o st) = true ∧ noStopOk (stepA st o) os = true := by
        simpa [noStopOk, Bool.and_eq_true] using hNS
      have hstop : stopOk o st = false := by simpa using hparts.1
      have hkeep := stepA_keeps_active st o hA hstop
      have hrec := ih (stepA st o) hkeep.1 hparts.2
      refine ⟨?_, ?_⟩
      · show sessionActive (runA (stepA st o) os) = true
        exact hrec.1
      · show noStartOk st (o :: os) = true
        simp [noStartOk, hkeep.2, hrec.2]

/-! Claim theorems. -/

/-- C1: for every sequence of start/stop intents, at most one session is
active at any instant: with a session active, start_timer fails with the
AlreadyRunning warning box and returns the state unchanged, and along any
continuation containing no successful stop, no start succeeds and the one
session stays active — so no two starts succeed without an intervening
stop. -/
theorem single_active_session (st : AppState) (ops : List Op)
    (hA : sessionActive st = true) (hNS : noStopOk st ops = true) :
    (∀ (sel : Option String) (now : ℚ),
        start_timer sel now st = (.alreadyRunning, st) ∧
        start_dialogs (start_timer sel now st).1 =
          [⟨.warning, "Running", "Timer already running"⟩]) ∧
    noStartOk st ops = true ∧
    sessionActive (runA st ops) = true := by
  have h := runA_active_of_noStop ops st hA hNS
  refine ⟨?_, h.2, h.1⟩
  intro sel now
  have hs := start_timer_when_active sel now st hA
  refine ⟨hs, ?_⟩
  rw [hs]
  rfl

/-- C1 witness: a concrete active state and a run of two further starts
with no stop: both starts fail and the session stays active. -/
theorem single_active_session_witness :
    noStartOk demoActive [Op.start (some "Alpha") 99, Op.start none 100] = true ∧
    sessionActive (runA demoActive [Op.start (some "Alpha") 99, Op.start none 100]) = true :=
  (single_active_session demoActive [Op.start (some "Alpha") 99, Op.start none 100]
    (by decide) (by decide)).2

/-- C2: stop is atomic with respect to the session: when persisting the
new entry fails, stop_timer returns with the project reference and start
instant still set and the store untouched — the entry of elapsed time is
not silently lost. -/
theorem stop_store_failure_keeps_session (st : AppState) (now : ℚ)
    (pid : Nat) (s0 : ℚ)
    (h1 : st.active_project_id = some pid) (h2 : st.start_time = some s0) :
    stop_timer now false st = (.storeFailed, st) ∧
    (stop_timer now false st).2.active_project_id = some pid ∧
    (stop_timer now false st).2.start_time = some s0 ∧
    (stop_timer now false st).2.store = st.store := by
  have h : stop_timer now false st = (.storeFailed, st) := by
    simp [stop_timer, h1, h2]
  refine ⟨h, ?_, ?_, ?_⟩
  · rw [h]; exact h1
  · rw [h]; exact h2
  · rw [h]

/-- C2 witness: stopping the concrete active session under a store failure
keeps project 1 and start instant 10 set and the store unchanged. -/
theorem stop_store_failure_keeps_session_witness :
    stop_timer 99 false demoActive = (.storeFailed, demoActive) ∧
    (stop_timer 99 false demoActive).2.active_project_id = some 1 ∧
    (stop_timer 99 false demoActive).2.start_time = some 10 ∧
    (stop_timer 99 false demoActive).2.store = demoActive.store :=
  stop_store_failure_keeps_session demoActive 99 1 10 rfl rfl

/-- C3 counterexample: the claim says stop with no active session fails
with NotRunning; in the code that branch is a bare return — on the
concrete idle state stop_timer takes the silent branch, shows no message
box (while the AlreadyRunning branch of start_timer does show one), and
changes nothing, so the call does not fail at all. -/
theorem stop_idle_not_failing_cex :
    stop_timer 42 true idleState = (.notRunningSilent, idleState) ∧
    stop_dialogs (stop_timer 42 true idleState).1 = [] ∧
    start_dialogs StartResult.alreadyRunning ≠ [] := by
  refine ⟨by simp [stop_timer, idleState], rfl, by simp [start_dialogs]⟩

/-- C3 amended: stop with no active session is a silent no-op: it shows
no dialog, creates no entry, and leaves the whole state (store included)
unchanged. -/
theorem stop_idle_silent_noop (now : ℚ) (persistOk : Bool) (st : AppState)
    (h : st.active_project_id = none) :
    stop_timer now persistOk st = (.notRunningSilent, st) ∧
    stop_dialogs (stop_timer now persistOk st).1 = [] := by
  have hr : stop_timer now persistOk st = (.notRunningSilent, st) := by
    simp [stop_timer, h]
  exact ⟨hr, rfl⟩

/-- C3 witness: the amended statement evaluated on the idle state. -/
theorem stop_idle_silent_noop_witness :
    stop_timer 42 true idleState = (.notRunningSilent, idleState) ∧
    stop_dialogs (stop_timer 42 true idleState).1 = [] :=
  stop_idle_silent_noop 42 true idleState rfl

/-- C4: start on a project name that does not exist in the store fails
(the row lookup comes back empty and the handler aborts on the
subscription, the unknownProject outcome) and leaves the session state —
indeed the whole state — unchanged. -/
theorem start_unknown_project (name : String) (now : ℚ) (st : AppState)
    (hIdle : st.active_project_id = none)
    (hNo : lookupProjectId st.store name = none) :
    start_timer (some name) now st = (.unknownProject, st) := by
  simp [start_timer, hIdle, hNo]

/-- C4 witness: starting the unknown project Ghost from the idle state. -/
theorem start_unknown_project_witness :
    start_timer (some "Ghost") 5 idleState = (.unknownProject, idleState) :=
  start_unknown_project "Ghost" 5 idleState rfl (by decide)

/-- start_timer never touches the store. -/
theorem start_timer_store (sel : Option String) (now : ℚ) (st : AppState) :
    (start_timer sel now st).2.store = st.store := by
  unfold start_timer
  split
  · rfl
  · split
    · rfl
    · split
      · rfl
      · rfl

/-- Whatever branch stop_timer takes, the entries table is only ever
extended at the end. -/
theorem stop_timer_entries (now : ℚ) (persistOk : Bool) (st : AppState) :
    ∃ tail, (stop_timer now persistOk st).2.store.entries =
      st.store.entries ++ tail := by
  unfold stop_timer
  split
  · exact ⟨[], (List.append_nil _).symm⟩
  · split
    · exact ⟨[], (List.append_nil _).symm⟩
    · split
      · exact ⟨_, rfl⟩
      · exact ⟨[], (List.append_nil _).symm⟩

/-- Every intent leaves the existing rows of the entries table in place:
the table is append-only, so a persisted entry is never mutated. -/
theorem entries_append_only (st : AppState) (o : Op) :
    ∃ tail, (stepA st o).store.entries = st.store.entries ++ tail := by
  cases o with
  | addProject n =>
      refine ⟨[], ?_⟩
      rw [List.append_nil]
      exact (add_project_session n st).2.2
  | start sel now =>
      refine ⟨[], ?_⟩
      rw [List.append_nil]
      show (start_timer sel now st).2.store.entries = st.store.entries
      rw [start_timer_store]
  | stop now persistOk => exact stop_timer_entries now persistOk st
  | showTotals d => exact ⟨[], (List.append_nil _).symm⟩
  | exportCsv => exact ⟨[], (List.append_nil _).symm⟩
  | refresh => exact ⟨[], (List.append_nil _).symm⟩

/-- C5: the entry a successful stop creates carries the session start as
start, the clock as end, duration equal to end minus start floored to
whole seconds (truncation and floor agree since end is not before start),
hence nonnegative, together with the note; and no intent ever rewrites an
existing row of the entries table, so the entry is never mutated
afterwards. -/
theorem stop_entry_duration_floor (st : AppState) (pid : Nat) (s0 now : ℚ)
    (h1 : st.active_project_id = some pid) (h2 : st.start_time = some s0)
    (h3 : s0 ≤ now) :
    (∃ e : Entry,
        (stop_timer now true st).2.store.entries = st.store.entries ++ [e] ∧
        e.project_id = pid ∧ e.start_time = s0 ∧ e.end_time = now ∧
        e.duration = ⌊now - s0⌋ ∧ e.duration = ⌊e.end_time - e.start_time⌋ ∧
        0 ≤ e.duration ∧ e.note = st.note_entry) ∧
    ∀ (st2 : AppState) (o : Op), ∃ tail,
        (stepA st2 o).store.entries = st2.store.entries ++ tail := by
  constructor
  · have hstop : stop_timer now true st =
        (.ok, { st with
          store := insert_entry st.store pid s0 now (pyInt (now - s0)) st.note_entry,
          active_project_id := none, start_time := none, note_entry := "" }) := by
      simp [stop_timer, h1, h2]
    have hfloor : pyInt (now - s0) = ⌊now - s0⌋ := by
      unfold pyInt
      rw [if_pos (sub_nonneg.mpr h3)]
    refine ⟨⟨nextId (st.store.entries.map (fun e => e.id)), pid, s0, now,
      pyInt (now - s0), st.note_entry⟩, ?_, rfl, rfl, rfl, hfloor, hfloor, ?_, rfl⟩
    · rw [hstop]
      rfl
    · show 0 ≤ pyInt (now - s0)
      rw [hfloor]
      exact Int.floor_nonneg.mpr (sub_nonneg.mpr h3)
  · intro st2 o
    exact entries_append_only st2 o

/-- C5 witness: stopping the concrete session started at instant 10 at
instant 135 yields an entry of duration 125, and the append-only fact. -/
theorem stop_entry_duration_floor_witness :
    (∃ e : Entry,
        (stop_timer 135 true demoActive).2.store.entries =
          demoActive.store.entries ++ [e] ∧
        e.project_id = 1 ∧ e.start_time = 10 ∧ e.end_time = 135 ∧
        e.duration = ⌊(135 : ℚ) - 10⌋ ∧ e.duration = ⌊e.end_time - e.start_time⌋ ∧
        0 ≤ e.duration ∧ e.note = demoActive.note_entry) ∧
    ∀ (st2 : AppState) (o : Op), ∃ tail,
        (stepA st2 o).store.entries = st2.store.entries ++ tail :=
  stop_entry_duration_floor demoActive 1 10 135 rfl rfl (by norm_num)

/-- C6: the daily total of show_totals sums duration over exactly the
entries whose start instant falls on the given calendar day; it is 0 (not
an error) when no entry matches; two entries on the same day with
durations 600 and 900 total 1500; a fresh store totals 0. -/
theorem show_totals_daily_sum (st : AppState) (d : ℤ) :
    (show_totals d st).1 =
      ((st.store.entries.filter (fun e => decide (dateOf e.start_time = d))).map
        (fun e => e.duration)).sum ∧
    ((∀ e ∈ st.store.entries, dateOf e.start_time ≠ d) → (show_totals d st).1 = 0) ∧
    (show_totals 0 (mkState sameDayStore)).1 = 1500 ∧
    (show_totals d (mkState ⟨[], []⟩)).1 = 0 := by
  have hgen : ∀ (s : Store) (d2 : ℤ), daily_total s d2 =
      ((s.entries.filter (fun e => decide (dateOf e.start_time = d2))).map
        (fun e => e.duration)).sum := fun s d2 => sqlSum_getD _
  refine ⟨hgen st.store d, ?_, ?_, ?_⟩
  · intro hnone
    have hfil : st.store.entries.filter (fun e => decide (dateOf e.start_time = d)) = [] :=
      List.filter_eq_nil_iff.mpr (fun e he => by simpa using hnone e he)
    show daily_total st.store d = 0
    rw [hgen st.store d, hfil]
    rfl
  · show daily_total sameDayStore 0 = 1500
    rw [hgen sameDayStore 0]
    norm_num [sameDayStore, dateOf, List.filter_cons, List.filter_nil]
  · show daily_total ⟨[], []⟩ d = 0
    rfl

/-- C6 witness: on the idle state, whose store holds no entries, no entry
matches day 5 and the daily total is 0. -/
theorem show_totals_daily_sum_witness : (show_totals 5 idleState).1 = 0 :=
  (show_totals_daily_sum idleState 5).2.1
    (fun e he => absurd he (List.not_mem_nil e))

/-- C7: the weekly total of show_totals sums duration over exactly the
entries whose start day is on or after the Monday of the query day
(week_start is the query day minus its Monday-based weekday); an entry
whose start day falls before that Monday contributes nothing; on the
concrete store, the entry five days before query day 20 (a Wednesday,
weekday 2) lies in the previous ISO week and is excluded even though it is
within the last 7 days. -/
theorem show_totals_weekly_monday (st : AppState) (d : ℤ) (e : Entry) :
    (show_totals d st).2 =
      ((st.store.entries.filter
          (fun e2 => decide (weekStart d ≤ dateOf e2.start_time))).map
        (fun e2 => e2.duration)).sum ∧
    weekStart d = d - (d + 3) % 7 ∧
    (dateOf e.start_time < weekStart d →
        (show_totals d (mkState (storeWith st.store e))).2 = (show_totals d st).2) ∧
    (show_totals 20 (mkState prevWeekStore)).2 = 0 ∧
    (20 : ℤ) - dateOf (1296100 : ℚ) ≤ 7 ∧ weekday 20 = 2 := by
  have hgen : ∀ (s : Store) (d2 : ℤ), weekly_total s d2 =
      ((s.entries.filter
          (fun e2 => decide (weekStart d2 ≤ dateOf e2.start_time))).map
        (fun e2 => e2.duration)).sum := fun s d2 => sqlSum_getD _
  refine ⟨hgen st.store d, rfl, ?_, ?_, ?_, ?_⟩
  · intro hlt
    show weekly_total (storeWith st.store e) d = weekly_total st.store d
    rw [hgen, hgen]
    show ((List.filter _ (e :: st.store.entries)).map
        (fun e2 => e2.duration)).sum = _
    simp [List.filter_cons, decide_eq_true_eq, not_le.mpr hlt]
  · show weekly_total prevWeekStore 20 = 0
    rw [hgen prevWeekStore 20]
    norm_num [prevWeekStore, dateOf, weekStart, weekday,
      List.filter_cons, List.filter_nil]
  · norm_num [dateOf]
  · norm_num [weekday]

/-- C7 witness: adding the previous-week entry to the idle store leaves
the weekly total at query day 20 unchanged. -/
theorem show_totals_weekly_monday_witness :
    (show_totals 20 (mkState (storeWith idleState.store
        ⟨1, 1, 1296100, 1296400, 300, ""⟩))).2 =
      (show_totals 20 idleState).2 :=
  (show_totals_weekly_monday idleState 20 ⟨1, 1, 1296100, 1296400, 300, ""⟩).2.2.1
    (by norm_num [dateOf, weekStart, weekday])

/-- C8 counterexample: the claim says the re-parsed export lists the rows
in the order of list_entries, which is descending by start instant; but
the export query has no ORDER BY, so on a store whose two entries were
inserted in ascending start order the exported rows come back in table
order, the reverse of list_entries. -/
theorem export_order_cex :
    parseCsv (export_csv twoEntryStore) ≠ list_entries twoEntryStore := by
  decide

/-- C8 amended: exporting then re-parsing reproduces project name, start,
end, duration and note of every entry — the re-parsed rows are exactly the
joined rows, a permutation of list_entries — but in the entries-table
(insertion) order, not in the descending-start order of list_entries,
which is the sorted one. -/
theorem export_roundtrip_content (s : Store) :
    parseCsv (export_csv s) = joinRows s ∧
    List.Perm (parseCsv (export_csv s)) (list_entries s) ∧
    List.Sorted rowDesc (list_entries s) := by
  refine ⟨rfl, ?_, ?_⟩
  · exact (List.perm_insertionSort rowDesc (joinRows s)).symm
  · exact List.sorted_insertionSort rowDesc (joinRows s)

/-- C9 counterexample: on the empty store, where no project with id 7
exists, the modelled INSERT appends the entry row and signals nothing —
the claim that it fails with UnknownProject and appends no row is false
(the entries schema declares no FOREIGN KEY and no check is made). -/
theorem insert_entry_orphan_cex :
    ((Store.mk [] []).projects.all (fun p => p.id != 7)) = true ∧
    insert_entry (Store.mk [] []) 7 0 10 10 "x" =
      Store.mk [] [⟨1, 7, 0, 10, 10, "x"⟩] := by
  decide

/-- C9 amended: insert_entry appends the row unconditionally: even when
project_id matches no project it succeeds, appends exactly one row
carrying that project_id, and leaves the projects table unchanged. -/
theorem insert_entry_no_fk (s : Store) (pid : Nat) (a b : ℚ) (dur : ℤ)
    (note : String) (_h : ∀ p ∈ s.projects, p.id ≠ pid) :
    ∃ e : Entry,
      (insert_entry s pid a b dur note).entries = s.entries ++ [e] ∧
      e.project_id = pid ∧
      (insert_entry s pid a b dur note).projects = s.projects :=
  ⟨_, rfl, rfl, rfl⟩

/-- C9 witness: the amended statement on the empty store and project id 7. -/
theorem insert_entry_no_fk_witness :
    ∃ e : Entry,
      (insert_entry (Store.mk [] []) 7 0 10 10 "x").entries = [] ++ [e] ∧
      e.project_id = 7 ∧
      (insert_entry (Store.mk [] []) 7 0 10 10 "x").projects = [] :=
  insert_entry_no_fk (Store.mk [] []) 7 0 10 10 "x"
    (fun p hp => absurd hp (List.not_mem_nil p))

/-- C10: an entry whose project_id matches no projects row still adds its
duration to both the daily and the weekly totals (the totals query reads
entries alone), yet produces no row in list_entries and none in the
exported file (both queries use an inner join with projects). -/
theorem orphan_entry_counted_not_listed (s : Store) (e : Entry) (d : ℤ)
    (hOrphan : ∀ p ∈ s.projects, p.id ≠ e.project_id)
    (hDay : dateOf e.start_time = d) :
    (show_totals d (mkState (storeWith s e))).1 =
      e.duration + (show_totals d (mkState s)).1 ∧
    (show_totals d (mkState (storeWith s e))).2 =
      e.duration + (show_totals d (mkState s)).2 ∧
    list_entries (storeWith s e) = list_entries s ∧
    export_csv (storeWith s e) = export_csv s := by
  have hfind : s.projects.find? (fun p => p.id == e.project_id) = none := by
    apply List.find?_eq_none.mpr
    intro p hp
    simpa using hOrphan p hp
  have hjoin : joinRows (storeWith s e) = joinRows s := by
    show List.filterMap (entryRow (storeWith s e)) (e :: s.entries) = _
    have hrow : entryRow (storeWith s e) e = none := by
      unfold entryRow
      show (s.projects.find? (fun p => p.id == e.project_id)).map _ = none
      rw [hfind]
      rfl
    rw [List.filterMap_cons_none hrow]
    rfl
  refine ⟨?_, ?_, ?_, ?_⟩
  · show daily_total (storeWith s e) d = e.duration + daily_total s d
    unfold daily_total
    rw [sqlSum_getD, sqlSum_getD]
    show ((List.filter _ (e :: s.entries)).map (fun x => x.duration)).sum = _
    rw [List.filter_cons_of_pos (by simpa using hDay)]
    rw [List.map_cons, List.sum_cons]
    rfl
  · show weekly_total (storeWith s e) d = e.duration + weekly_total s d
    unfold weekly_total
    rw [sqlSum_getD, sqlSum_getD]
    have hle : weekStart d ≤ dateOf e.start_time := by
      rw [hDay]
      exact weekStart_le d
    show ((List.filter _ (e :: s.entries)).map (fun x => x.duration)).sum = _
    rw [List.filter_cons_of_pos (by simpa using hle)]
    rw [List.map_cons, List.sum_cons]
    rfl
  · unfold list_entries
    rw [hjoin]
  · unfold export_csv
    rw [hjoin]

/-- C10 witness: an orphan entry with project id 9 on day 0, added to a
store whose only project has id 1. -/
theorem orphan_entry_counted_not_listed_witness :
    (show_totals 0 (mkState (storeWith ⟨[⟨1, "Alpha"⟩], []⟩
        ⟨5, 9, 0, 60, 60, ""⟩))).1 =
      (60 : ℤ) + (show_totals 0 (mkState ⟨[⟨1, "Alpha"⟩], []⟩)).1 ∧
    (show_totals 0 (mkState (storeWith ⟨[⟨1, "Alpha"⟩], []⟩
        ⟨5, 9, 0, 60, 60, ""⟩))).2 =
      (60 : ℤ) + (show_totals 0 (mkState ⟨[⟨1, "Alpha"⟩], []⟩)).2 ∧
    list_entries (storeWith ⟨[⟨1, "Alpha"⟩], []⟩ ⟨5, 9, 0, 60, 60, ""⟩) =
      list_entries ⟨[⟨1, "Alpha"⟩], []⟩ ∧
    export_csv (storeWith ⟨[⟨1, "Alpha"⟩], []⟩ ⟨5, 9, 0, 60, 60, ""⟩) =
      export_csv ⟨[⟨1, "Alpha"⟩], []⟩ :=
  orphan_entry_counted_not_listed ⟨[⟨1, "Alpha"⟩], []⟩ ⟨5, 9, 0, 60, 60, ""⟩ 0
    (by decide) (by norm_num [dateOf])

end TimeTracker
